import Mathlib

/-!
Shallow embedding of the Trustpilot company-categories scraper
(`src/extractors/company_parser.py`, `src/extractors/review_parser.py`,
`src/extractors/utils_filters.py`).

Python dynamic values that flow through the filter parameters are modelled by
the inductive `PyVal`; Python exceptions (`TypeError`, `ValueError`,
`AttributeError`) are modelled by `Except PyErr`.  Python `float` arithmetic is
modelled by the rationals `ℚ` (all numeric literals appearing in the claims are
exactly representable).  String primitives (`str.lower`, `str.replace`,
`float(str)`, `int(str)`) are re-implemented on `List Char`; they agree with
CPython on the ASCII decimal forms exercised here (Unicode case folding,
exponent notation, underscores and surrounding whitespace are outside the
modelled grammar).
-/

set_option maxRecDepth 16384

/-- Python exception kinds raised by the modelled code paths. -/
inductive PyErr where
  | typeError
  | valueError (msg : String)
  | attributeError
deriving DecidableEq

/-- A dynamically typed Python value as it can appear in the `params`
dictionary (`None`, numbers, strings, booleans). -/
inductive PyVal where
  | none
  | num (q : ℚ)
  | str (s : String)
  | bool (b : Bool)
deriving DecidableEq

/-- Python truthiness (`bool(x)`) for `PyVal`. -/
def PyVal.truthy : PyVal → Bool
  | .none => false
  | .num q => q ≠ 0
  | .str s => s ≠ ""
  | .bool b => b

/-- ASCII lower-casing, the model of Python `str.lower` on ASCII data. -/
def pyLower (s : String) : String := ⟨s.data.map Char.toLower⟩

/-- Model of `", ".join`-style joining (Python `str.join`). -/
def joinSep (sep : String) : List String → String
  | [] => ""
  | [x] => x
  | x :: y :: xs => x ++ sep ++ joinSep sep (y :: xs)

/-- Python `str.strip()`: drop whitespace from both ends. -/
def pyStrip (s : String) : String :=
  ⟨((s.data.dropWhile Char.isWhitespace).reverse.dropWhile Char.isWhitespace).reverse⟩

/-- Whether the string ends with a literal dot (Python `str.endswith(".")`). -/
def endsWithDot (s : String) : Bool :=
  match s.data.getLast? with
  | some c => c = '.'
  | Option.none => false

def startsWithSlash (s : String) : Bool :=
  match s.data with
  | '/' :: _ => true
  | _ => false

def isPrefixCh : List Char → List Char → Bool
  | [], _ => true
  | _ :: _, [] => false
  | p :: ps, c :: cs => p = c && isPrefixCh ps cs

/-- Substring containment on the character lists, the model of Python
`pat in s`. -/
def containsSub (pat : List Char) : List Char → Bool
  | [] => isPrefixCh pat []
  | c :: cs => isPrefixCh pat (c :: cs) || containsSub pat cs

def strContains (s pat : String) : Bool := containsSub pat.data s.data

def digitVal (c : Char) : ℕ := c.toNat - 48

def allDigits (cs : List Char) : Bool := cs.all Char.isDigit

def digitsToNat (cs : List Char) : ℕ := cs.foldl (fun a c => a * 10 + digitVal c) 0

/-- Split the character list at its first dot, when one exists. -/
def breakAtDot : List Char → Option (List Char × List Char)
  | [] => Option.none
  | '.' :: r => some ([], r)
  | c :: r => (breakAtDot r).map (fun p => (c :: p.1, p.2))

/-- Model of Python `float(s)` on plain decimal strings: an optional sign,
digits, and at most one dot with digits on at least one side. -/
def pyFloatOfString (s : String) : Option ℚ :=
  let withSign : List Char → Option ℚ := fun cs =>
    match breakAtDot cs with
    | Option.none =>
        if cs ≠ [] ∧ allDigits cs then some (digitsToNat cs : ℚ) else Option.none
    | some (a, b) =>
        if (a ≠ [] ∨ b ≠ []) ∧ allDigits a ∧ allDigits b ∧ ¬ containsSub ['.'] b then
          some ((digitsToNat a : ℚ) + (digitsToNat b : ℚ) / ((10 : ℚ) ^ b.length))
        else Option.none
  match s.data with
  | '-' :: rest => (withSign rest).map (fun q => -q)
  | '+' :: rest => withSign rest
  | rest => withSign rest

/-- Model of Python `int(s)` on plain decimal integer strings. -/
def pyIntOfString (s : String) : Option ℤ :=
  let core : List Char → Option ℤ := fun cs =>
    if cs ≠ [] ∧ allDigits cs then some (digitsToNat cs : ℤ) else Option.none
  match s.data with
  | '-' :: rest => (core rest).map (fun n => -n)
  | '+' :: rest => core rest
  | rest => core rest

/-- Truncation toward zero, the rounding of Python `int(float)`. -/
def ratTrunc (q : ℚ) : ℤ :=
  if q < 0 then -(q.num.natAbs / q.den : ℕ) else (q.num.natAbs / q.den : ℕ)

example : pyFloatOfString "4.5" = some (9 / 2) := by with_unfolding_all decide
example : pyFloatOfString "" = Option.none := by with_unfolding_all decide
example : pyFloatOfString "-3" = some (-3) := by with_unfolding_all decide
example : pyIntOfString "4.5" = Option.none := by with_unfolding_all decide
example : pyIntOfString "100" = some 100 := by with_unfolding_all decide
example : ratTrunc (-9 / 2) = -4 := by with_unfolding_all decide

/-! ## JSON values (`json.loads` output) -/

/-- A parsed JSON value, the model of what `json.loads` yields for a
structured-data block. -/
inductive Json where
  | null
  | str (s : String)
  | num (q : ℚ)
  | bool (b : Bool)
  | arr (xs : List Json)
  | obj (fields : List (String × Json))

/-- Dictionary lookup; on duplicate keys `json.loads` keeps the last one. -/
def lookupLast (fields : List (String × Json)) (k : String) : Option Json :=
  fields.foldl (fun acc kv => if kv.1 = k then some kv.2 else acc) Option.none

/-- Python truthiness for a JSON value. -/
def jTruthy : Json → Bool
  | .null => false
  | .str s => s ≠ ""
  | .num q => q ≠ 0
  | .bool b => b
  | .arr xs => ¬ xs.isEmpty
  | .obj fields => ¬ fields.isEmpty

/-- Model of `dict.get` on a structured-data object. -/
def jget (fields : List (String × Json)) (k : String) : Option Json :=
  lookupLast fields k

/-- Model of `x or y` where `x` is a fetched JSON value: keeps `x` when
truthy, otherwise falls through to `y`. -/
def jOr (x : Option Json) (y : Option Json) : Option Json :=
  match x with
  | some j => if jTruthy j then some j else y
  | Option.none => y

/-- Model of `_safe_float` applied to a JSON value (`float()` with
`TypeError`/`ValueError` mapped to `None`). -/
def safeFloatJson : Option Json → Option ℚ
  | Option.none => Option.none
  | some .null => Option.none
  | some (.num q) => some q
  | some (.str s) => pyFloatOfString s
  | some (.bool b) => some (if b then 1 else 0)
  | some (.arr _) => Option.none
  | some (.obj _) => Option.none

/-- Model of `_safe_int` applied to a JSON value (`int()` with
`TypeError`/`ValueError` mapped to `None`). -/
def safeIntJson : Option Json → Option ℤ
  | Option.none => Option.none
  | some .null => Option.none
  | some (.num q) => some (ratTrunc q)
  | some (.str s) => pyIntOfString s
  | some (.bool b) => some (if b then 1 else 0)
  | some (.arr _) => Option.none
  | some (.obj _) => Option.none

/-- Zero-pad a natural number to the given width. -/
def padNat (w : ℕ) (n : ℕ) : String :=
  let d := toString n
  ⟨List.replicate (w - d.length) '0' ++ d.data⟩

/-- Smallest exponent `k ≤ 12` with `q * 10 ^ k` integral, when one exists. -/
def decExp (q : ℚ) : Option ℕ :=
  (List.range 13).find? (fun k => (q * (10 : ℚ) ^ k).den = 1)

/-- Model of Python `str(x)` for a float value `x`: a plain decimal rendering
with at least one fractional digit (`str(4.0) = "4.0"`, `str(4.5) = "4.5"`).
Floats whose shortest decimal form needs more than 12 fractional digits are
outside the modelled grammar. -/
def pyFloatStr (q : ℚ) : String :=
  let sign := if q < 0 then "-" else ""
  match decExp q with
  | some 0 => sign ++ toString q.num.natAbs ++ ".0"
  | some k =>
      let a := (q.num.natAbs * (10 : ℕ) ^ k) / q.den
      sign ++ toString (a / 10 ^ k) ++ "." ++ padNat k (a % 10 ^ k)
  | Option.none => sign ++ toString q.num.natAbs ++ "/" ++ toString q.den

/-- Model of Python `str(x)` for a JSON scalar (used by `str(c)` over category
entries and by the rating-summary strings). Integral JSON numbers print as
integers, fractional ones as floats; composite values (lists, objects) are
outside the modelled grammar and get a fixed marker rendering. -/
def jsonPyStr : Json → String
  | .null => "None"
  | .str s => s
  | .bool b => if b then "True" else "False"
  | .num q => if q.den = 1 then toString q.num else pyFloatStr q
  | .arr _ => "[...]"
  | .obj _ => "{...}"

example : pyFloatStr (21 / 5) = "4.2" := by with_unfolding_all decide
example : pyFloatStr 4 = "4.0" := by with_unfolding_all decide
example : jsonPyStr (.num 80) = "80" := by with_unfolding_all decide

/-! ## Dates (`review_parser._parse_date_iso`, stdlib `datetime`) -/

/-- A timezone-aware or naive datetime, the model of the Python `datetime`
values produced by `datetime.fromisoformat`. -/
structure PyDateTime where
  year : ℕ
  month : ℕ
  day : ℕ
  hour : ℕ
  minute : ℕ
  second : ℕ
  tzMinutes : Option ℤ
deriving DecidableEq

def isLeap (y : ℕ) : Bool := (y % 4 = 0 && y % 100 ≠ 0) || y % 400 = 0

def daysInMonth (y m : ℕ) : ℕ :=
  if m = 2 then (if isLeap y then 29 else 28)
  else if m = 4 ∨ m = 6 ∨ m = 9 ∨ m = 11 then 30
  else 31

/-- Two decimal digits as a number. -/
def dd (a b : Char) : Option ℕ :=
  if a.isDigit && b.isDigit then some (digitVal a * 10 + digitVal b) else Option.none

/-- A UTC-offset suffix `±HH:MM` (the form produced by replacing a trailing
`Z` and the form Trustpilot emits). -/
def parseOffset : List Char → Option ℤ
  | s :: h1 :: h2 :: ':' :: m1 :: m2 :: [] => do
      let hh ← dd h1 h2
      let mm ← dd m1 m2
      if hh ≤ 23 ∧ mm ≤ 59 then
        if s = '+' then some ((hh : ℤ) * 60 + mm)
        else if s = '-' then some (-((hh : ℤ) * 60 + mm))
        else Option.none
      else Option.none
  | _ => Option.none

/-- The time-of-day part `HH[:MM[:SS]]` with an optional UTC offset. -/
def parseTimePart : List Char → Option (ℕ × ℕ × ℕ × Option ℤ)
  | h1 :: h2 :: rest => do
      let hh ← dd h1 h2
      if hh ≤ 23 then
        match rest with
        | [] => some (hh, 0, 0, Option.none)
        | ':' :: m1 :: m2 :: rest2 => do
            let mm ← dd m1 m2
            if mm ≤ 59 then
              match rest2 with
              | [] => some (hh, mm, 0, Option.none)
              | ':' :: s1 :: s2 :: rest3 => do
                  let ss ← dd s1 s2
                  if ss ≤ 59 then
                    match rest3 with
                    | [] => some (hh, mm, ss, Option.none)
                    | _ => (parseOffset rest3).map (fun tz => (hh, mm, ss, some tz))
                  else Option.none
              | _ => (parseOffset rest2).map (fun tz => (hh, mm, 0, some tz))
            else Option.none
        | _ => (parseOffset rest).map (fun tz => (hh, 0, 0, some tz))
      else Option.none
  | _ => Option.none

/-- Model of `datetime.fromisoformat` on the core ISO-8601 grammar
`YYYY-MM-DD[<sep>HH[:MM[:SS]][±HH:MM]]` (any single separator character, as
CPython accepts).  Fractional seconds, basic formats without separators, and
week/ordinal dates are outside the modelled grammar and parse as `none`. -/
def pyFromIso (s : String) : Option PyDateTime :=
  match s.data with
  | y1 :: y2 :: y3 :: y4 :: '-' :: mo1 :: mo2 :: '-' :: d1 :: d2c :: rest => do
      if y1.isDigit && y2.isDigit && y3.isDigit && y4.isDigit then
        let y := digitsToNat [y1, y2, y3, y4]
        let mo ← dd mo1 mo2
        let d ← dd d1 d2c
        if 1 ≤ y ∧ 1 ≤ mo ∧ mo ≤ 12 ∧ 1 ≤ d ∧ d ≤ daysInMonth y mo then
          match rest with
          | [] => some ⟨y, mo, d, 0, 0, 0, Option.none⟩
          | _ :: timecs =>
              (parseTimePart timecs).map (fun t => ⟨y, mo, d, t.1, t.2.1, t.2.2.1, t.2.2.2⟩)
        else Option.none
      else Option.none
  | _ => Option.none

/-- Model of `datetime.isoformat` for whole-second datetimes. -/
def pyIsoformat (dt : PyDateTime) : String :=
  let tzStr :=
    match dt.tzMinutes with
    | some off =>
        (if off < 0 then "-" else "+") ++
          padNat 2 (off.natAbs / 60) ++ ":" ++ padNat 2 (off.natAbs % 60)
    | Option.none => ""
  padNat 4 dt.year ++ "-" ++ padNat 2 dt.month ++ "-" ++ padNat 2 dt.day ++ "T" ++
    padNat 2 dt.hour ++ ":" ++ padNat 2 dt.minute ++ ":" ++ padNat 2 dt.second ++ tzStr

/-- Replace every occurrence of the character `Z` by `+00:00`, the model of
`raw.replace("Z", "+00:00")` (a single-character pattern, so replace-all is a
per-character expansion). -/
def replaceZchars : List Char → List Char
  | [] => []
  | 'Z' :: rest => '+' :: '0' :: '0' :: ':' :: '0' :: '0' :: replaceZchars rest
  | c :: rest => c :: replaceZchars rest

def pyReplaceZ (s : String) : String := ⟨replaceZchars s.data⟩

/-- The date record stored on a `Review` (`{"createdAt": ...}`). -/
structure DateRec where
  createdAt : Option String
deriving DecidableEq

/-- Model of `review_parser._parse_date_iso`: attempt an ISO-8601 parse after
replacing `Z` with `+00:00`; re-serialize on success, keep the raw string on
failure. -/
def parse_date_iso (raw : String) : DateRec :=
  match pyFromIso (pyReplaceZ raw) with
  | some dt => ⟨some (pyIsoformat dt)⟩
  | Option.none => ⟨some raw⟩

/-- The `time` element of a review card: its optional `datetime` attribute and
its stripped visible text. -/
structure TimeEl where
  datetime : Option String
  text : String
deriving DecidableEq

/-- Model of `review_parser._parse_reviews_from_html` lines 145-147: the raw
date string is the `datetime` attribute when present, else the element's
visible text, else the empty string when no `time` element exists. -/
def reviewDateRaw (timeEl : Option TimeEl) : String :=
  match timeEl with
  | some te =>
      match te.datetime with
      | some d => d
      | Option.none => te.text
  | Option.none => ""

/-- Model of `review_parser._parse_reviews_from_html` line 149: the stored
date record for a review card. -/
def reviewDate (timeEl : Option TimeEl) : DateRec :=
  let raw := reviewDateRaw timeEl
  if raw = "" then ⟨Option.none⟩ else parse_date_iso raw

example : parse_date_iso "2024-01-01T00:00:00Z" = ⟨some "2024-01-01T00:00:00+00:00"⟩ := by
  with_unfolding_all decide
example : parse_date_iso "13 hours ago" = ⟨some "13 hours ago"⟩ := by
  with_unfolding_all decide
example : parse_date_iso "2024-01-01" = ⟨some "2024-01-01T00:00:00"⟩ := by
  with_unfolding_all decide

/-! ## The `Company` data model (`company_parser.Company` and the review
dataclasses from `review_parser`) -/

/-- The value stored in `Company.ratingValue`.  The dataclass annotates the
field as `Optional[float]`, but the filter claims also consider dynamically
typed inputs where a numeric string sits in the field, so both are
representable. -/
inductive RVal where
  | flt (q : ℚ)
  | strv (s : String)
deriving DecidableEq

/-- Review author (`review_parser.Consumer`). -/
structure Consumer where
  id : Option String
  displayName : Option String
  imageUrl : Option String
  isVerified : Option Bool
  numberOfReviews : Option ℤ
  countryCode : Option String
deriving DecidableEq

/-- One customer review (`review_parser.Review`). -/
structure Review where
  id : Option String
  text : Option String
  title : Option String
  rating : Option ℤ
  date : DateRec
  consumer : Consumer
deriving DecidableEq

/-- The display-string rating summary built by `_company_from_ld_json`
(the dataclass default `{}` is modelled by empty strings / `none`). -/
structure RatingDict where
  bestRating : String
  worstRating : String
  ratingValue : Option String
  reviewCount : Option String
deriving DecidableEq

/-- The review-count-by-star-bucket mapping. -/
structure DataHist where
  one : ℤ
  two : ℤ
  three : ℤ
  four : ℤ
  five : ℤ
  total : ℤ
deriving DecidableEq

/-- The generated summary record (the dataclass default `{}` is modelled by
the all-empty record `aiSummaryEmpty`). -/
structure AiSummary where
  summary : String
  status : String
  lang : String
  updatedAt : String
deriving DecidableEq

def aiSummaryEmpty : AiSummary := ⟨"", "", "", ""⟩

/-- Canonical business record (`company_parser.Company`).  Field defaults
mirror the dataclass defaults; `similarBusinessUnits` holds opaque mappings
that this code never populates, so its element type is irrelevant. -/
structure Company where
  ID : String
  domain : Option String := Option.none
  ratingValue : Option RVal := Option.none
  reviewCount : Option ℤ := Option.none
  name : Option String := Option.none
  description : Option String := Option.none
  image : Option String := Option.none
  country : Option String := Option.none
  address : Option String := Option.none
  city : Option String := Option.none
  zipCode : Option String := Option.none
  website : Option String := Option.none
  email : Option String := Option.none
  phone : Option String := Option.none
  categories : List String := []
  categoriesID : List String := []
  lastReviews : List Review := []
  reviews : List Review := []
  rating : RatingDict := ⟨"", "", Option.none, Option.none⟩
  data : DataHist := ⟨0, 0, 0, 0, 0, 0⟩
  similarBusinessUnits : List Unit := []
  aiSummary : AiSummary := aiSummaryEmpty
  sourceUrl : Option String := Option.none
deriving DecidableEq

/-! ## The generated summary (`company_parser._build_ai_summary`) -/

/-- Round to tenths with ties to even, the rounding of Python `"%.1f"`
formatting (on the exact rational value). -/
def roundHalfEvenTenths (q : ℚ) : ℤ :=
  let x := q * 10
  let n := x.num
  let d : ℤ := (x.den : ℤ)
  let fl := Int.fdiv n d
  let rem := n - fl * d
  if d < 2 * rem then fl + 1
  else if 2 * rem < d then fl
  else if fl % 2 = 0 then fl else fl + 1

/-- Model of the f-string formatting `f"{x:.1f}"` for a float `x`. -/
def fmt1f (q : ℚ) : String :=
  let t := roundHalfEvenTenths q
  let sign := if t < 0 then "-" else ""
  sign ++ toString (t.natAbs / 10) ++ "." ++ toString (t.natAbs % 10)

/-- Formatting `f"{x:.1f}"` on a dynamically typed rating value: a string in
the slot raises `ValueError` (unknown format code for `str`). -/
def fmtRVal : RVal → Except PyErr String
  | .flt q => .ok (fmt1f q)
  | .strv _ => .error (.valueError "Unknown format code f for object of type str")

def optStrTruthy : Option String → Bool
  | some s => s ≠ ""
  | Option.none => false

def dedupKeepFirstAux : List String → List String → List String
  | [], _ => []
  | x :: xs, seen =>
      if x ∈ seen then dedupKeepFirstAux xs seen else x :: dedupKeepFirstAux xs (x :: seen)

/-- The distinct elements of the list, first occurrences kept (the model of
Python `set(...)` before sorting makes the iteration order irrelevant). -/
def dedupKeepFirst (xs : List String) : List String := dedupKeepFirstAux xs []

def insertSorted (x : String) : List String → List String
  | [] => [x]
  | y :: ys => if y < x then y :: insertSorted x ys else x :: y :: ys

/-- Ascending insertion sort by the code-point order, the model of Python
`sorted` on strings. -/
def sortStr (xs : List String) : List String := xs.foldr insertSorted []

/-- Model of the sentence-fragment list built by `_build_ai_summary`
lines 197-220.  Only the rating fragment can raise (string rating value in a
float format slot); every other fragment is total. -/
def summaryParts (c : Company) : Except PyErr (List String) :=
  let part1 :=
    match c.name with
    | some n =>
        if n ≠ "" then n ++ " is a business listed on Trustpilot"
        else "This business is listed on Trustpilot"
    | Option.none => "This business is listed on Trustpilot"
  let catParts :=
    if c.categories.isEmpty then []
    else
      let catStr := joinSep ", " (sortStr (dedupKeepFirst c.categories))
      ["operating in the " ++ catStr ++ " sector"]
  let locParts :=
    if optStrTruthy c.country then
      let loc := joinSep ", " (([c.city, c.country].filterMap id).filter (fun s => s ≠ ""))
      if loc ≠ "" then ["and appears to be based in " ++ loc] else []
    else []
  match c.ratingValue, c.reviewCount with
  | some rv, some n =>
      (fmtRVal rv).map (fun fs =>
        part1 :: catParts ++ locParts ++
          ["with an average rating of " ++ fs ++ " from " ++ toString n ++ " reviews"])
  | some rv, Option.none =>
      (fmtRVal rv).map (fun fs =>
        part1 :: catParts ++ locParts ++ ["and an average rating of " ++ fs])
  | Option.none, _ => .ok (part1 :: catParts ++ locParts)

/-- Model of `_build_ai_summary` lines 222-224: join the fragments, strip,
terminate with a period when one is missing. -/
def mkSummaryText (parts : List String) : String :=
  let summary := pyStrip (joinSep ", " parts)
  if summary ≠ "" ∧ ¬ endsWithDot summary then summary ++ "." else summary

/-- Model of `company_parser._build_ai_summary`.  The wall-clock timestamp
`datetime.now(timezone.utc).isoformat()` is made an explicit input `now`. -/
def buildAiSummary (c : Company) (now : String) : Except PyErr AiSummary :=
  (summaryParts c).map (fun parts => ⟨mkSummaryText parts, "success", "en", now⟩)

/-! ## URL helpers (stdlib `urlparse` / `urljoin` on the forms used here) -/

/-- Split the characters at the first `://`, when present. -/
def splitSchemeSep : List Char → Option (List Char × List Char)
  | ':' :: '/' :: '/' :: rest => some ([], rest)
  | c :: rest => (splitSchemeSep rest).map (fun p => (c :: p.1, p.2))
  | [] => Option.none

/-- Model of `urlparse(u).netloc`: the host part between `://` and the next
delimiter; empty when the URL carries no `://`. -/
def netlocOf (u : String) : String :=
  match splitSchemeSep u.data with
  | some p => ⟨p.2.takeWhile (fun c => c ≠ '/' && c ≠ '?' && c ≠ '#')⟩
  | Option.none => ""

/-- Model of `urljoin(base_url, url)` for a root-relative `url` (the only
shape the source joins): scheme and host of the base followed by the path. -/
def urljoinSlash (base url : String) : String :=
  match splitSchemeSep base.data with
  | some p =>
      ⟨p.1 ++ (':' :: '/' :: '/' :: p.2.takeWhile (fun c => c ≠ '/')) ++ url.data⟩
  | Option.none => url

/-- Model of `company_parser._extract_domain`. -/
def extractDomain (url : Option String) : Option String :=
  match url with
  | Option.none => Option.none
  | some u =>
      if u = "" then Option.none
      else
        let n := netlocOf u
        if n = "" then Option.none else some n

/-! ## Structured-data extraction (`company_parser._company_from_ld_json`) -/

/-- Read a field the dataclass types as an optional string.  Non-string JSON
values in these slots are outside the modelled grammar and read as absent. -/
def jgetS (fields : List (String × Json)) (k : String) : Option String :=
  match jget fields k with
  | some (.str s) => some s
  | _ => Option.none

/-- Read a string field through `... or None`: falsy values become `none`. -/
def jgetTruthyS (fields : List (String × Json)) (k : String) : Option String :=
  match jget fields k with
  | some (.str s) => if s ≠ "" then some s else Option.none
  | _ => Option.none

/-- Model of `x or y` on optional strings (`""` and `None` are falsy). -/
def pyOrOS (x y : Option String) : Option String :=
  match x with
  | some s => if s ≠ "" then some s else y
  | Option.none => y

/-- Model of `x or default` on a fetched JSON value. -/
def jOrD (x : Option Json) (d : Json) : Json :=
  match x with
  | some j => if jTruthy j then j else d
  | Option.none => d

/-- The lower-cased declared types of a structured-data object
(`company_parser._company_from_ld_json` lines 102-108): a list maps each
entry through `.lower()` (raising for non-string entries), a single string
becomes a singleton, anything else is the empty list. -/
def typesOf : Json → Except PyErr (List String)
  | .obj fields =>
      match jget fields "@type" with
      | some (.arr xs) =>
          xs.mapM (fun t =>
            match t with
            | .str s => Except.ok (pyLower s)
            | _ => Except.error PyErr.attributeError)
      | some (.str s) => .ok [pyLower s]
      | _ => .ok []
  | _ => .ok []

/-- First string entry of a `sameAs` list that does not contain the substring
`trustpilot` (`_company_from_ld_json` lines 135-140). -/
def firstNonTrustpilot : List Json → Option String
  | [] => Option.none
  | .str s :: rest =>
      if ¬ strContains s "trustpilot" then some s else firstNonTrustpilot rest
  | _ :: rest => firstNonTrustpilot rest

/-- Model of `_company_from_ld_json` lines 99-188: everything up to (and
including) the category assignment, with the summary record still empty.
Returns `ok none` for skipped objects; raises exactly where the Python would
(lowering a non-string type entry, `.get` on a truthy non-dict
`aggregateRating`). -/
def companyCore (data : Json) (base : String) (hint : Option String) :
    Except PyErr (Option Company) :=
  match data with
  | .obj fields => do
      let types ← typesOf data
      if ¬ types.any (fun t => t = "organization" || t = "localbusiness") then
        return Option.none
      else do
        let url0 := pyOrOS (jgetS fields "url") (pyOrOS (jgetS fields "@id") Option.none)
        let url : Option String :=
          match url0 with
          | some u => if startsWithSlash u then some (urljoinSlash base u) else some u
          | Option.none => Option.none
        let agg : List (String × Json) ←
          match jget fields "aggregateRating" with
          | some j =>
              if jTruthy j then
                match j with
                | .obj f => Except.ok f
                | _ => Except.error PyErr.attributeError
              else Except.ok []
          | Option.none => Except.ok []
        let rating_value := safeFloatJson (jget agg "ratingValue")
        let review_count := safeIntJson (jget agg "reviewCount")
        let address0 : Json :=
          match jget fields "address" with
          | some j => if jTruthy j then j else .obj []
          | Option.none => .obj []
        let address1 : Json :=
          match address0 with
          | .arr (x :: _) => x
          | other => other
        let addr : List (String × Json) :=
          match address1 with
          | .obj f => f
          | _ => []
        let website_url : Option String :=
          match jget fields "sameAs" with
          | some (.arr entries) => firstNonTrustpilot entries
          | some (.str s) => some s
          | _ => Option.none
        let domain := extractDomain (pyOrOS website_url url)
        let idFallback := (pyOrOS domain (pyOrOS url Option.none)).getD ""
        let ID := (pyOrOS (jgetS fields "@id") (some idFallback)).getD ""
        let category := jOr (jget fields "category") (jget fields "keywords")
        let cats : List String :=
          match category with
          | some (.arr xs) => xs.map jsonPyStr
          | some (.str s) => [s]
          | _ => []
        return some {
          ID := ID
          domain := domain
          ratingValue := rating_value.map RVal.flt
          reviewCount := review_count
          name := jgetS fields "name"
          description := jgetS fields "description"
          image := jgetS fields "image"
          country := jgetTruthyS addr "addressCountry"
          address := jgetTruthyS addr "streetAddress"
          city := jgetTruthyS addr "addressLocality"
          zipCode := jgetTruthyS addr "postalCode"
          website := website_url
          email := Option.none
          phone := jgetS fields "telephone"
          categories := cats
          categoriesID :=
            match hint with
            | some h => if h ≠ "" then [h] else []
            | Option.none => []
          rating := {
            bestRating := jsonPyStr (jOrD (jget agg "bestRating") (.str "5"))
            worstRating := jsonPyStr (jOrD (jget agg "worstRating") (.str "1"))
            ratingValue := rating_value.map pyFloatStr
            reviewCount := review_count.map toString }
          data := ⟨0, 0, 0, 0, 0, review_count.getD 0⟩
          aiSummary := aiSummaryEmpty
          sourceUrl := url }
  | _ => Except.ok Option.none

/-- Model of `company_parser._company_from_ld_json` (lines 94-193): the core
record construction followed by the summary attachment
`company.aiSummary = _build_ai_summary(company)`.  The run timestamp is the
explicit `now` input. -/
def companyFromLdJson (data : Json) (base : String) (hint : Option String)
    (now : String) : Except PyErr (Option Company) := do
  match ← companyCore data base hint with
  | Option.none => return Option.none
  | some c0 => do
      let a ← buildAiSummary c0 now
      return some { c0 with aiSummary := a }

deriving instance DecidableEq for Except

/-! ## Page-level extraction (`company_parser._parse_ld_json_blocks`) and the
detail search (`company_parser._search_detail`) -/

/-- A block may hold one object or a list of objects (lines 251-255). -/
def ldItems : Json → List Json
  | .arr xs => xs
  | j => [j]

/-- The inner loop of `_parse_ld_json_blocks` (lines 257-265) over the items
of one block, threading the set of already-seen IDs.  Non-dict items are
skipped; a produced company is kept when its exact `ID` is new. -/
def itemsLoop (base : String) (hint : Option String) (now : String) :
    List Json → List String → Except PyErr (List Company × List String)
  | [], seen => .ok ([], seen)
  | item :: items, seen =>
      match item with
      | .obj _ =>
          match companyFromLdJson item base hint now with
          | .error e => .error e
          | .ok Option.none => itemsLoop base hint now items seen
          | .ok (some c) =>
              if c.ID ∈ seen then itemsLoop base hint now items seen
              else
                match itemsLoop base hint now items (c.ID :: seen) with
                | .error e => .error e
                | .ok p => .ok (c :: p.1, p.2)
      | _ => itemsLoop base hint now items seen

/-- The outer loop of `_parse_ld_json_blocks` (lines 242-265) over the
`ld+json` script blocks of a page.  A block is given as `none` when its raw
content is empty or fails `json.loads` (lines 243-249), in which case it is
skipped. -/
def blocksLoop (base : String) (hint : Option String) (now : String) :
    List (Option Json) → List String → Except PyErr (List Company)
  | [], _ => .ok []
  | Option.none :: rest, seen => blocksLoop base hint now rest seen
  | some j :: rest, seen =>
      match itemsLoop base hint now (ldItems j) seen with
      | .error e => .error e
      | .ok p =>
          match blocksLoop base hint now rest p.2 with
          | .error e => .error e
          | .ok l => .ok (p.1 ++ l)

/-- Model of `company_parser._parse_ld_json_blocks`.  The HTML scan of
BeautifulSoup is abstracted to the document-ordered list of `ld+json` block
contents, each either parsed JSON or `none` for an empty/malformed block. -/
def parseLdJsonBlocks (blocks : List (Option Json)) (base : String)
    (hint : Option String) (now : String) : Except PyErr (List Company) :=
  blocksLoop base hint now blocks []

/-- Model of `company_parser._search_detail`.  The fetched page is the
explicit `page` input (`none` for a fetch failure); review attachment is a
network side effect that does not change the returned list's membership or
order and is outside the model. -/
def searchDetail (domain : PyVal) (page : Option (List (Option Json)))
    (base : String) (now : String) : Except PyErr (List Company) :=
  if ¬ domain.truthy then
    .error (.valueError "For searchType=\"detail\" you must provide \"domain\".")
  else
    match page with
    | Option.none => .ok []
    | some blocks =>
        match parseLdJsonBlocks blocks base Option.none now with
        | .error e => .error e
        | .ok cs => if cs.isEmpty then .ok [] else .ok cs

/-! ## Filter engine (`utils_filters`) -/

/-- Model of `utils_filters._safe_float` on a dynamically typed parameter. -/
def safeFloatP : PyVal → Option ℚ
  | .none => Option.none
  | .num q => some q
  | .str s => pyFloatOfString s
  | .bool b => some (if b then 1 else 0)

/-- Model of `apply_company_filters` lines 68-72: `int(minReviews)` with
`TypeError`/`ValueError` falling back to no threshold. -/
def toMinReviews : PyVal → Option ℤ
  | .none => Option.none
  | .num q => some (ratTrunc q)
  | .str s => pyIntOfString s
  | .bool b => some (if b then 1 else 0)

/-- Model of `_safe_float(company.ratingValue)` used by `_meets_min_trust`. -/
def safeFloatR : Option RVal → Option ℚ
  | Option.none => Option.none
  | some (.flt q) => some q
  | some (.strv s) => pyFloatOfString s

/-- Model of `utils_filters._meets_min_trust`. -/
def meets_min_trust (c : Company) (minTrust : Option ℚ) : Bool :=
  match minTrust with
  | Option.none => true
  | some t =>
      match safeFloatR c.ratingValue with
      | Option.none => false
      | some r => t ≤ r

/-- Model of `utils_filters._matches_country`.  Calling `.lower()` on a
truthy non-string filter value raises `AttributeError`. -/
def matches_country (c : Company) (country : PyVal) : Except PyErr Bool :=
  if ¬ country.truthy then .ok true
  else
    match c.country with
    | Option.none => .ok false
    | some s =>
        if s = "" then .ok false
        else
          match country with
          | .str t => .ok (pyLower s = pyLower t)
          | _ => .error .attributeError

/-- Model of `utils_filters._has_min_reviews`. -/
def has_min_reviews (c : Company) (minimum : Option ℤ) : Bool :=
  match minimum with
  | Option.none => true
  | some m =>
      match c.reviewCount with
      | Option.none => false
      | some n => m ≤ n

/-- Model of `utils_filters._is_verified`.  The comparison
`company.ratingValue >= 4.0` is applied to the raw field value: a numeric
string in the slot raises `TypeError` (`str >= float` is unsupported). -/
def is_verified (c : Company) : Except PyErr Bool :=
  match c.ratingValue, c.reviewCount with
  | Option.none, _ => .ok false
  | _, Option.none => .ok false
  | some rv, some n =>
      match rv with
      | .flt q => .ok (decide (4 ≤ q) && decide (50 ≤ n))
      | .strv _ => .error .typeError

/-- The filter parameters read by `apply_company_filters` from the `params`
dictionary; an absent key reads as `PyVal.none`. -/
structure FilterParams where
  minTrustScore : PyVal := .none
  verifiedOnly : PyVal := .none
  minReviews : PyVal := .none
  country : PyVal := .none
deriving DecidableEq

/-- One iteration of the loop body of `apply_company_filters` (lines 77-88):
whether the company survives all four checks, evaluated in source order (a
`continue` is `ok false`, an uncaught exception is `error`). -/
def companyPasses (mt : Option ℚ) (country : PyVal) (mr : Option ℤ) (vo : Bool)
    (c : Company) : Except PyErr Bool :=
  if meets_min_trust c mt then
    match matches_country c country with
    | .error e => .error e
    | .ok mc =>
        if mc then
          if has_min_reviews c mr then
            if vo then
              match is_verified c with
              | .error e => .error e
              | .ok v => .ok v
            else .ok true
          else .ok false
        else .ok false
  else .ok false

/-- The accumulation loop of `apply_company_filters` (lines 76-90), with the
thresholds already parsed.  The first raising predicate aborts the whole
call, as an uncaught Python exception would. -/
def filterLoop (mt : Option ℚ) (country : PyVal) (mr : Option ℤ) (vo : Bool) :
    List Company → Except PyErr (List Company)
  | [] => .ok []
  | c :: cs =>
      match companyPasses mt country mr vo c with
      | .error e => .error e
      | .ok true =>
          match filterLoop mt country mr vo cs with
          | .error e => .error e
          | .ok l => .ok (c :: l)
      | .ok false => filterLoop mt country mr vo cs

/-- Model of `utils_filters.apply_company_filters`. -/
def apply_company_filters (companies : List Company) (params : FilterParams) :
    Except PyErr (List Company) :=
  filterLoop (safeFloatP params.minTrustScore) params.country
    (toMinReviews params.minReviews) params.verifiedOnly.truthy companies

/-! ## Search orchestration (`company_parser.search_companies`) -/

/-- The resolved deduplication key of `search_companies` lines 432-437: the
`ID` field, else the domain, else the source URL, else the empty string. -/
def resolvedKey (c : Company) : String :=
  if c.ID = "" then (pyOrOS c.domain (pyOrOS c.sourceUrl Option.none)).getD ""
  else c.ID

/-- The deduplication fold of `search_companies` lines 431-439 (an
insertion-ordered dict keyed by the resolved key, first occurrence wins,
empty keys dropped). -/
def dedupLoop : List Company → List String → List Company
  | [], _ => []
  | c :: cs, seen =>
      let k := resolvedKey c
      if k ≠ "" ∧ k ∉ seen then c :: dedupLoop cs (k :: seen)
      else dedupLoop cs seen

/-- Model of the global deduplication of `search_companies` (lines 430-442). -/
def dedupCompanies (companies : List Company) : List Company :=
  dedupLoop companies []

inductive SearchMode where
  | category
  | keyword
  | detail
deriving DecidableEq

/-- Model of the mode resolution of `search_companies` lines 418-428:
`(params.get("searchType") or "category").lower()` dispatched over the three
supported modes, any other resolved string raising `ValueError`. -/
def searchDispatch (v : PyVal) : Except PyErr SearchMode := do
  let st ←
    (if ¬ v.truthy then Except.ok "category"
     else
       match v with
       | .str s => Except.ok (pyLower s)
       | _ => Except.error PyErr.attributeError)
  if st = "category" then .ok .category
  else if st = "keyword" then .ok .keyword
  else if st = "detail" then .ok .detail
  else .error (.valueError ("Unsupported searchType: " ++ st))

/-- Model of `company_parser.search_companies`: resolve the mode, run the
mode-specific page accumulation (abstracted as the `fetched` input, since it
is network-bound), then deduplicate globally. -/
def searchCompanies (searchTypeParam : PyVal)
    (fetched : SearchMode → Except PyErr (List Company)) :
    Except PyErr (List Company) := do
  let mode ← searchDispatch searchTypeParam
  let companies ← fetched mode
  return dedupCompanies companies

example :
    companyFromLdJson (.obj [("@type", .str "Organization"), ("name", .str "Acme")])
      "https://www.trustpilot.com" Option.none "T1" =
    Except.ok (some { ID := ""
                      name := some "Acme"
                      rating := ⟨"5", "1", Option.none, Option.none⟩
                      aiSummary := ⟨"Acme is a business listed on Trustpilot.",
                        "success", "en", "T1"⟩ }) := by
  with_unfolding_all decide

/-! ## Lemmas about the global deduplication -/

lemma dedupLoop_sublist (cs : List Company) : ∀ seen, (dedupLoop cs seen).Sublist cs := by
  induction cs with
  | nil => intro seen; simp [dedupLoop]
  | cons a cs ih =>
      intro seen
      simp only [dedupLoop]
      split
      · exact List.Sublist.cons₂ _ (ih _)
      · exact List.Sublist.cons _ (ih _)

lemma dedupLoop_mem_key (cs : List Company) :
    ∀ seen c, c ∈ dedupLoop cs seen → resolvedKey c ≠ "" ∧ resolvedKey c ∉ seen := by
  induction cs with
  | nil => intro seen c h; simp [dedupLoop] at h
  | cons a cs ih =>
      intro seen c h
      simp only [dedupLoop] at h
      split at h
      case isTrue hcond =>
        rcases List.mem_cons.mp h with rfl | hm
        · exact hcond
        · have h2 := ih _ _ hm
          exact ⟨h2.1, fun hx => h2.2 (List.mem_cons_of_mem _ hx)⟩
      case isFalse hcond => exact ih _ _ h

lemma dedupLoop_pairwise (cs : List Company) :
    ∀ seen, (dedupLoop cs seen).Pairwise (fun a b => resolvedKey a ≠ resolvedKey b) := by
  induction cs with
  | nil => intro seen; simp [dedupLoop]
  | cons a cs ih =>
      intro seen
      simp only [dedupLoop]
      split
      · refine List.Pairwise.cons (fun b hb he => ?_) (ih _)
        exact (dedupLoop_mem_key cs _ b hb).2 (he ▸ List.mem_cons_self _ _)
      · exact ih _

lemma dedupLoop_filter_seen (cs : List Company) (seen : List String) (k : String)
    (hk : k ∈ seen) :
    (dedupLoop cs seen).filter (fun c => decide (resolvedKey c = k)) = [] := by
  rw [List.filter_eq_nil_iff]
  intro c hc
  simp only [decide_eq_true_eq]
  exact fun he => (dedupLoop_mem_key cs seen c hc).2 (he ▸ hk)

lemma dedupLoop_filter_take (cs : List Company) :
    ∀ seen k, k ∉ seen → k ≠ "" →
      (dedupLoop cs seen).filter (fun c => decide (resolvedKey c = k)) =
        (cs.filter (fun c => decide (resolvedKey c = k))).take 1 := by
  induction cs with
  | nil => intro seen k h1 h2; simp [dedupLoop]
  | cons a cs ih =>
      intro seen k hks hk
      by_cases ha : resolvedKey a = k
      · have hcond : resolvedKey a ≠ "" ∧ resolvedKey a ∉ seen := by
          rw [ha]; exact ⟨hk, hks⟩
        simp only [dedupLoop, if_pos hcond]
        rw [List.filter_cons_of_pos (by simp [ha]), List.filter_cons_of_pos (by simp [ha])]
        rw [dedupLoop_filter_seen cs _ k (ha ▸ List.mem_cons_self _ _)]
        simp
      · simp only [dedupLoop]
        split
        · rw [List.filter_cons_of_neg (by simp [ha]), List.filter_cons_of_neg (by simp [ha])]
          refine ih _ _ ?_ hk
          simp only [List.mem_cons, not_or]
          exact ⟨fun h => ha h.symm, hks⟩
        · rw [List.filter_cons_of_neg (by simp [ha])]
          exact ih _ _ hks hk

/-- C2: the list returned by `search_companies` contains no two companies with
the same resolved identity key (ID, falling back to domain, then source URL);
the first occurrence of each key is the one kept and survivors appear in order
of first appearance.  Stated about the global deduplication fold, plus the
fact that every successful `search_companies` result is such a fold. -/
theorem C2_dedup_unique_first_order (companies : List Company) :
    (dedupCompanies companies).Sublist companies ∧
    (dedupCompanies companies).Pairwise (fun a b => resolvedKey a ≠ resolvedKey b) ∧
    (∀ k : String, k ≠ "" →
      (dedupCompanies companies).filter (fun c => decide (resolvedKey c = k)) =
        (companies.filter (fun c => decide (resolvedKey c = k))).take 1) ∧
    (∀ (stv : PyVal) (fetched : SearchMode → Except PyErr (List Company)) l,
      searchCompanies stv fetched = .ok l → ∃ cs, l = dedupCompanies cs) := by
  refine ⟨dedupLoop_sublist companies [], dedupLoop_pairwise companies [], ?_, ?_⟩
  · intro k hk
    exact dedupLoop_filter_take companies [] k (by simp) hk
  · intro stv fetched l h
    simp only [searchCompanies, bind, Except.bind] at h
    cases hd : searchDispatch stv with
    | error e => rw [hd] at h; simp at h
    | ok m =>
        rw [hd] at h
        dsimp only at h
        cases hf : fetched m with
        | error e => rw [hf] at h; simp at h
        | ok cs =>
            rw [hf] at h
            simp only [pure, Except.pure, Except.ok.injEq] at h
            exact ⟨cs, h.symm⟩

def coA : Company := { ID := "a" }

def coA2 : Company := { ID := "a", name := some "Other" }

def coEmptyKey : Company := { ID := "" }

theorem C2_witness :
    (dedupCompanies [coA, coA2]).filter (fun c => decide (resolvedKey c = "a")) =
      ([coA, coA2].filter (fun c => decide (resolvedKey c = "a"))).take 1 :=
  (C2_dedup_unique_first_order [coA, coA2]).2.2.1 "a" (by decide)

/-- C10: every company surviving `search_companies`' deduplication has a
non-empty resolved identity key; a company whose ID is empty and whose domain
and source URL are both absent is removed entirely. -/
theorem C10_resolved_key_nonempty :
    (∀ companies (c : Company), c ∈ dedupCompanies companies → resolvedKey c ≠ "") ∧
    (∀ companies (c : Company), c.ID = "" → c.domain = Option.none →
      c.sourceUrl = Option.none → c ∉ dedupCompanies companies) := by
  constructor
  · intro companies c hc
    exact (dedupLoop_mem_key companies [] c hc).1
  · intro companies c h1 h2 h3 hc
    exact (dedupLoop_mem_key companies [] c hc).1 (by simp [resolvedKey, h1, h2, h3, pyOrOS])

theorem C10_witness : coEmptyKey ∉ dedupCompanies [coEmptyKey] :=
  C10_resolved_key_nonempty.2 [coEmptyKey] coEmptyKey rfl rfl rfl

/-! ## Lemmas about the filter engine -/

lemma filterLoop_sublist (cs : List Company) :
    ∀ mt country mr vo l, filterLoop mt country mr vo cs = .ok l → l.Sublist cs := by
  induction cs with
  | nil =>
      intro mt country mr vo l h
      simp only [filterLoop] at h
      obtain rfl : ([] : List Company) = l := by simpa using h
      simp
  | cons c cs ih =>
      intro mt country mr vo l h
      simp only [filterLoop] at h
      cases hp : companyPasses mt country mr vo c with
      | error e => rw [hp] at h; simp at h
      | ok b =>
          rw [hp] at h
          cases b with
          | true =>
              dsimp only at h
              cases hr : filterLoop mt country mr vo cs with
              | error e => rw [hr] at h; simp at h
              | ok l0 =>
                  rw [hr] at h
                  dsimp only at h
                  obtain rfl : c :: l0 = l := by simpa using h
                  exact List.Sublist.cons₂ _ (ih _ _ _ _ _ hr)
          | false =>
              dsimp only at h
              exact List.Sublist.cons _ (ih _ _ _ _ _ h)

lemma filterLoop_idem (cs : List Company) :
    ∀ mt country mr vo l, filterLoop mt country mr vo cs = .ok l →
      filterLoop mt country mr vo l = .ok l := by
  induction cs with
  | nil =>
      intro mt country mr vo l h
      simp only [filterLoop] at h
      obtain rfl : ([] : List Company) = l := by simpa using h
      simp [filterLoop]
  | cons c cs ih =>
      intro mt country mr vo l h
      simp only [filterLoop] at h
      cases hp : companyPasses mt country mr vo c with
      | error e => rw [hp] at h; simp at h
      | ok b =>
          rw [hp] at h
          cases b with
          | true =>
              dsimp only at h
              cases hr : filterLoop mt country mr vo cs with
              | error e => rw [hr] at h; simp at h
              | ok l0 =>
                  rw [hr] at h
                  dsimp only at h
                  obtain rfl : c :: l0 = l := by simpa using h
                  have hl0 := ih _ _ _ _ _ hr
                  simp [filterLoop, hp, hl0]
          | false =>
              dsimp only at h
              exact ih _ _ _ _ _ h

lemma filterLoop_mem (cs : List Company) :
    ∀ mt country mr vo l c, filterLoop mt country mr vo cs = .ok l → c ∈ cs →
      companyPasses mt country mr vo c = .ok true → c ∈ l := by
  induction cs with
  | nil => intro mt country mr vo l c h hc; simp at hc
  | cons a cs ih =>
      intro mt country mr vo l c h hc hpass
      simp only [filterLoop] at h
      rcases List.mem_cons.mp hc with rfl | hmem
      · rw [hpass] at h
        dsimp only at h
        cases hr : filterLoop mt country mr vo cs with
        | error e => rw [hr] at h; simp at h
        | ok l0 =>
            rw [hr] at h
            dsimp only at h
            obtain rfl : c :: l0 = l := by simpa using h
            exact List.mem_cons_self _ _
      · cases hp : companyPasses mt country mr vo a with
        | error e => rw [hp] at h; simp at h
        | ok b =>
            rw [hp] at h
            cases b with
            | true =>
                dsimp only at h
                cases hr : filterLoop mt country mr vo cs with
                | error e => rw [hr] at h; simp at h
                | ok l0 =>
                    rw [hr] at h
                    dsimp only at h
                    obtain rfl : a :: l0 = l := by simpa using h
                    exact List.mem_cons_of_mem _ (ih _ _ _ _ _ _ hr hmem hpass)
            | false =>
                dsimp only at h
                exact ih _ _ _ _ _ _ h hmem hpass

lemma companyPasses_noverify (mt : Option ℚ) (country : PyVal) (mr : Option ℤ)
    (c : Company) (h1 : meets_min_trust c mt = true)
    (h2 : matches_country c country = .ok true)
    (h3 : has_min_reviews c mr = true) :
    companyPasses mt country mr false c = .ok true := by
  simp [companyPasses, h1, h2, h3]

/-- C7: for every company list and filter parameter set, a successful
`apply_company_filters` result is an order-preserving subset (a sublist) of
its input, and filtering is idempotent on that result. -/
theorem C7_filter_sublist_idempotent (companies : List Company)
    (params : FilterParams) (l : List Company)
    (h : apply_company_filters companies params = .ok l) :
    l.Sublist companies ∧ apply_company_filters l params = .ok l :=
  ⟨filterLoop_sublist companies _ _ _ _ l h, filterLoop_idem companies _ _ _ _ l h⟩

theorem C7_witness :
    [coA].Sublist [coA] ∧ apply_company_filters [coA] {} = .ok [coA] :=
  C7_filter_sublist_idempotent [coA] {} [coA] (by with_unfolding_all decide)

/-- C3: with `verifiedOnly` set, a company passes the verified predicate iff
its rating value is a present number at least 4.0 and its review count is
present and at least 50; with `verifiedOnly` absent or falsy, the predicate
is not applied and no company passing the other three checks is excluded. -/
theorem C3_verified_only_semantics :
    (∀ c : Company, is_verified c = .ok true ↔
      (∃ q n, c.ratingValue = some (RVal.flt q) ∧ c.reviewCount = some n ∧
        4 ≤ q ∧ 50 ≤ n)) ∧
    (∀ (companies : List Company) (params : FilterParams),
      params.verifiedOnly.truthy = false →
      apply_company_filters companies params =
        apply_company_filters companies { params with verifiedOnly := PyVal.none }) ∧
    (∀ (companies : List Company) (params : FilterParams) (l : List Company)
      (c : Company),
      params.verifiedOnly.truthy = false →
      apply_company_filters companies params = .ok l → c ∈ companies →
      meets_min_trust c (safeFloatP params.minTrustScore) = true →
      matches_country c params.country = .ok true →
      has_min_reviews c (toMinReviews params.minReviews) = true →
      c ∈ l) := by
  refine ⟨?_, ?_, ?_⟩
  · intro c
    constructor
    · intro h
      rcases hrv : c.ratingValue with _ | rv <;> rcases hrc : c.reviewCount with _ | n <;>
        simp only [is_verified, hrv, hrc] at h
      · simp at h
      · simp at h
      · simp at h
      · cases rv with
        | flt q =>
            simp only [Except.ok.injEq, Bool.and_eq_true, decide_eq_true_eq] at h
            exact ⟨q, n, rfl, rfl, h.1, h.2⟩
        | strv s => simp at h
    · rintro ⟨q, n, h1, h2, h3, h4⟩
      simp [is_verified, h1, h2, h3, h4]
  · intro companies params h
    simp only [apply_company_filters]
    rw [h]
    rfl
  · intro companies params l c h hok hc hm1 hm2 hm3
    simp only [apply_company_filters] at hok
    rw [h] at hok
    exact filterLoop_mem companies _ _ _ _ l c hok hc
      (companyPasses_noverify _ _ _ c hm1 hm2 hm3)

def coVerified : Company :=
  { ID := "v", ratingValue := some (.flt (9 / 2)), reviewCount := some 100 }

theorem C3_witness : is_verified coVerified = .ok true :=
  (C3_verified_only_semantics.1 coVerified).mpr
    ⟨9 / 2, 100, rfl, rfl, by with_unfolding_all decide, by with_unfolding_all decide⟩

/-! ## The string-rating divergence in the verified filter -/

def coStrRating : Company :=
  { ID := "s", ratingValue := some (.strv "4.5"), reviewCount := some 100 }

def coFltRating : Company :=
  { ID := "s", ratingValue := some (.flt (9 / 2)), reviewCount := some 100 }

def paramsVerifiedOnly : FilterParams := { verifiedOnly := .bool true }

/-- C1: evaluation of `apply_company_filters` at the failing input.  The
rating value `"4.5"` parses to the float `4.5`, and without `verifiedOnly`
the two representations filter identically (here via `minTrustScore = 4`);
but with `verifiedOnly` set the float passes while the string raises
`TypeError` from the unguarded comparison `company.ratingValue >= 4.0` in
`_is_verified`, so the claimed equivalence fails on the code. -/
theorem C1_string_rating_breaks_verified_filter :
    pyFloatOfString "4.5" = some (9 / 2) ∧
    apply_company_filters [coStrRating] { minTrustScore := PyVal.num 4 } =
      .ok [coStrRating] ∧
    apply_company_filters [coFltRating] { minTrustScore := PyVal.num 4 } =
      .ok [coFltRating] ∧
    apply_company_filters [coFltRating] paramsVerifiedOnly = .ok [coFltRating] ∧
    apply_company_filters [coStrRating] paramsVerifiedOnly =
      .error PyErr.typeError := by
  refine ⟨?_, ?_, ?_, ?_, ?_⟩ <;> with_unfolding_all decide

/-- C4: a review's date is taken from the time element's `datetime` attribute,
else its visible text; a string the ISO parser accepts (after replacing the
literal `Z` by `+00:00`) is stored re-serialized via `isoformat`, an
unaccepted string is stored verbatim, and a card without a time element gets
`createdAt = null`; concretely `"2024-01-01T00:00:00Z"` becomes
`"2024-01-01T00:00:00+00:00"`. -/
theorem C4_review_date :
    (reviewDate Option.none = ⟨Option.none⟩) ∧
    (∀ (te : TimeEl) (d : String), te.datetime = some d →
      reviewDateRaw (some te) = d) ∧
    (∀ te : TimeEl, te.datetime = Option.none → reviewDateRaw (some te) = te.text) ∧
    (∀ (raw : String) (dt : PyDateTime), pyFromIso (pyReplaceZ raw) = some dt →
      parse_date_iso raw = ⟨some (pyIsoformat dt)⟩) ∧
    (∀ raw : String, pyFromIso (pyReplaceZ raw) = Option.none →
      parse_date_iso raw = ⟨some raw⟩) ∧
    (reviewDate (some ⟨some "2024-01-01T00:00:00Z", ""⟩) =
      ⟨some "2024-01-01T00:00:00+00:00"⟩) := by
  refine ⟨by with_unfolding_all decide, ?_, ?_, ?_, ?_, by with_unfolding_all decide⟩
  · intro te d h; simp [reviewDateRaw, h]
  · intro te h; simp [reviewDateRaw, h]
  · intro raw dt h; simp [parse_date_iso, h]
  · intro raw h; simp [parse_date_iso, h]

theorem C4_witness :
    reviewDateRaw (some ⟨some "2024-01-01", "yesterday"⟩) = "2024-01-01" ∧
    reviewDateRaw (some ⟨Option.none, "yesterday"⟩) = "yesterday" ∧
    parse_date_iso "13 hours ago" = ⟨some "13 hours ago"⟩ ∧
    parse_date_iso "2024-05-06T07:08:09+02:00" =
      ⟨some (pyIsoformat ⟨2024, 5, 6, 7, 8, 9, some 120⟩)⟩ :=
  ⟨C4_review_date.2.1 ⟨some "2024-01-01", "yesterday"⟩ "2024-01-01" rfl,
   C4_review_date.2.2.1 ⟨Option.none, "yesterday"⟩ rfl,
   C4_review_date.2.2.2.2.1 "13 hours ago" (by with_unfolding_all decide),
   C4_review_date.2.2.2.1 "2024-05-06T07:08:09+02:00" ⟨2024, 5, 6, 7, 8, 9, some 120⟩
     (by with_unfolding_all decide)⟩

/-- C5: a structured-data object whose declared `@type` (single string or list
of strings, compared case-insensitively) contains neither `Organization` nor
`LocalBusiness` yields no `Company` and is skipped silently, with no error
raised.  The hypothesis `typesOf data = ok tys` says exactly that the type
declaration is absent, a string, or a list of strings. -/
theorem C5_type_allowset (data : Json) (base : String) (hint : Option String)
    (now : String) (tys : List String)
    (h1 : typesOf data = .ok tys)
    (h2 : ∀ t ∈ tys, t ≠ "organization" ∧ t ≠ "localbusiness") :
    companyFromLdJson data base hint now = .ok Option.none := by
  have hany : tys.any (fun t => t = "organization" || t = "localbusiness") = false := by
    rw [List.any_eq_false]
    intro t ht
    simp only [Bool.or_eq_true, decide_eq_true_eq]
    rintro (h | h)
    exacts [(h2 t ht).1 h, (h2 t ht).2 h]
  have hcore : companyCore data base hint = .ok Option.none := by
    cases data with
    | obj fields =>
        simp only [companyCore, h1, bind, Except.bind]
        rw [if_pos (by simp [hany])]
        rfl
    | null => rfl
    | str s => rfl
    | num q => rfl
    | bool b => rfl
    | arr xs => rfl
  simp [companyFromLdJson, hcore, bind, Except.bind, pure, Except.pure]

theorem C5_witness :
    companyFromLdJson (Json.obj [("@type", Json.str "Product")])
      "https://www.trustpilot.com" Option.none "T1" = .ok Option.none :=
  C5_type_allowset (Json.obj [("@type", Json.str "Product")])
    "https://www.trustpilot.com" Option.none "T1" ["product"]
    (by with_unfolding_all decide) (by with_unfolding_all decide)

lemma blocksLoop_skip_none (base : String) (hint : Option String) (now : String)
    (post : List (Option Json)) :
    ∀ (pre : List (Option Json)) (seen : List String),
      blocksLoop base hint now (pre ++ Option.none :: post) seen =
        blocksLoop base hint now (pre ++ post) seen := by
  intro pre
  induction pre with
  | nil => intro seen; rfl
  | cons b pre ih =>
      intro seen
      cases b with
      | none => simpa only [List.cons_append, blocksLoop] using ih seen
      | some j =>
          simp only [List.cons_append, blocksLoop]
          cases hi : itemsLoop base hint now (ldItems j) seen with
          | error e => rfl
          | ok p =>
              dsimp only
              simp only [List.append_eq]
              rw [ih p.2]

/-- C6: a metadata block whose content fails JSON parsing is skipped without
raising, leaving the other blocks' results unchanged; and a detail-mode
search over a page with no matching structured-data block returns the empty
list without raising. -/
theorem C6_malformed_skipped_detail_empty :
    (∀ (pre post : List (Option Json)) (base : String) (hint : Option String)
      (now : String),
      parseLdJsonBlocks (pre ++ Option.none :: post) base hint now =
        parseLdJsonBlocks (pre ++ post) base hint now) ∧
    (∀ (blocks : List (Option Json)) (base now : String),
      parseLdJsonBlocks blocks base Option.none now = .ok [] →
      searchDetail (PyVal.str "example.com") (some blocks) base now = .ok []) := by
  constructor
  · intro pre post base hint now
    exact blocksLoop_skip_none base hint now post pre []
  · intro blocks base now h
    simp [searchDetail, PyVal.truthy, h]

theorem C6_witness :
    searchDetail (PyVal.str "example.com")
      (some [Option.none, some (Json.obj [("@type", Json.str "Product")])])
      "https://www.trustpilot.com" "T1" = .ok [] :=
  C6_malformed_skipped_detail_empty.2
    [Option.none, some (Json.obj [("@type", Json.str "Product")])]
    "https://www.trustpilot.com" "T1" (by with_unfolding_all decide)

/-! ## Determinism of the extractor modulo the wall clock -/

/-- Erase the run timestamp from an extraction result, leaving everything the
two runs could differ in. -/
def stripRunTime (r : Except PyErr (Option Company)) : Except PyErr (Option Company) :=
  r.map (Option.map (fun c => { c with aiSummary := { c.aiSummary with updatedAt := "" } }))

def orgBlock : Json := Json.obj [("@type", Json.str "Organization"), ("name", Json.str "Acme")]

/-- C8 counterexample: two runs of the extractor on the same block, base URL
and hint differ, because the summary record stamps
`datetime.now(timezone.utc).isoformat()` — here made the explicit clock
input, with a different value in each run. -/
theorem C8_counterexample :
    companyFromLdJson orgBlock "https://www.trustpilot.com" Option.none
        "2024-01-01T00:00:00+00:00" ≠
      companyFromLdJson orgBlock "https://www.trustpilot.com" Option.none
        "2024-01-02T00:00:00+00:00" := by
  with_unfolding_all decide

/-- C8 (amended): two runs of the extractor on the same inputs agree on every
field except the summary's `updatedAt`, which equals each run's own clock
value; in particular summary text, status and lang are identical. -/
theorem C8_deterministic_modulo_timestamp (data : Json) (base : String)
    (hint : Option String) (t1 t2 : String) :
    stripRunTime (companyFromLdJson data base hint t1) =
      stripRunTime (companyFromLdJson data base hint t2) ∧
    (∀ c : Company, companyFromLdJson data base hint t1 = .ok (some c) →
      c.aiSummary.updatedAt = t1) := by
  constructor
  · cases hc : companyCore data base hint with
    | error e => simp [companyFromLdJson, stripRunTime, hc, bind, Except.bind]
    | ok oc =>
        cases oc with
        | none => simp [companyFromLdJson, stripRunTime, hc, bind, Except.bind]
        | some c0 =>
            simp only [companyFromLdJson, hc, bind, Except.bind]
            cases hp : summaryParts c0 with
            | error e =>
                simp [buildAiSummary, hp, stripRunTime, Except.map]
            | ok parts =>
                simp [buildAiSummary, hp, stripRunTime, Except.map, pure,
                  Except.pure, Option.map]
  · intro c h
    cases hc : companyCore data base hint with
    | error e => rw [companyFromLdJson, hc] at h; simp [bind, Except.bind] at h
    | ok oc =>
        cases oc with
        | none =>
            rw [companyFromLdJson, hc] at h
            simp [bind, Except.bind, pure, Except.pure] at h
        | some c0 =>
            rw [companyFromLdJson, hc] at h
            simp only [bind, Except.bind, buildAiSummary] at h
            cases hp : summaryParts c0 with
            | error e => rw [hp] at h; simp [Except.map] at h
            | ok parts =>
                rw [hp] at h
                simp only [Except.map, pure, Except.pure, Except.ok.injEq,
                  Option.some.injEq] at h
                subst h
                rfl

def coAcme : Company :=
  { ID := "", name := some "Acme", rating := ⟨"5", "1", Option.none, Option.none⟩,
    aiSummary := ⟨"Acme is a business listed on Trustpilot.", "success", "en", "T1"⟩ }

theorem C8_witness : coAcme.aiSummary.updatedAt = "T1" :=
  (C8_deterministic_modulo_timestamp orgBlock "https://www.trustpilot.com"
      Option.none "T1" "T2").2 coAcme (by with_unfolding_all decide)

/-- C9: an absent searchType key, a `None` value, or the empty string all
dispatch exactly as `"category"` does, raising nothing; the unsupported-mode
`ValueError` occurs for precisely the non-empty strings whose lower-casing is
outside `{category, keyword, detail}`. -/
theorem C9_searchtype_default :
    searchDispatch PyVal.none = .ok SearchMode.category ∧
    searchDispatch (PyVal.str "") = .ok SearchMode.category ∧
    (∀ fetched : SearchMode → Except PyErr (List Company),
      searchCompanies PyVal.none fetched =
        searchCompanies (PyVal.str "category") fetched ∧
      searchCompanies (PyVal.str "") fetched =
        searchCompanies (PyVal.str "category") fetched) ∧
    (∀ s : String,
      (∃ msg, searchDispatch (PyVal.str s) = .error (.valueError msg)) ↔
      (s ≠ "" ∧ pyLower s ≠ "category" ∧ pyLower s ≠ "keyword" ∧
        pyLower s ≠ "detail")) := by
  refine ⟨rfl, rfl, fun fetched => ⟨rfl, rfl⟩, ?_⟩
  intro s
  constructor
  · rintro ⟨msg, hm⟩
    by_cases hs : s = ""
    · subst hs; simp [searchDispatch, PyVal.truthy, bind, Except.bind] at hm
    · have ht : (PyVal.str s).truthy = true := by simp [PyVal.truthy, hs]
      refine ⟨hs, ?_, ?_, ?_⟩ <;> intro heq <;>
        simp [searchDispatch, ht, heq, bind, Except.bind] at hm
  · rintro ⟨hs, h1, h2, h3⟩
    have ht : (PyVal.str s).truthy = true := by simp [PyVal.truthy, hs]
    refine ⟨"Unsupported searchType: " ++ pyLower s, ?_⟩
    simp [searchDispatch, ht, h1, h2, h3, bind, Except.bind]

theorem C9_witness :
    ∃ msg, searchDispatch (PyVal.str "Bogus") = .error (.valueError msg) :=
  (C9_searchtype_default.2.2.2 "Bogus").mpr (by with_unfolding_all decide)
